import Mathlib

/-!
Shallow embedding of the dedupe/merge logic of the RSS_Feeds repository
(src/newsdata_client.py and src/rss_openai_digest.py), with theorems that
settle the claims of the specification against the code.

Python values are modelled by `JVal` (JSON-shaped dynamic values plus the
Python `None`).  Python dicts are association lists; `dict.get` returns
`None` (here `.jnull`) for an absent key.  Fallible Python operations
(attribute errors, key errors, `sys.exit`) are modelled with
`Except String`.
-/

set_option autoImplicit false

/-- A Python/JSON value as it occurs in this program: `None`, booleans,
integers, strings, lists and string-keyed dicts.  (Floats do not occur in
the code paths under specification.) -/
inductive JVal where
  | jnull : JVal
  | jbool : Bool → JVal
  | jnum : Int → JVal
  | jstr : String → JVal
  | jarr : List JVal → JVal
  | jobj : List (String × JVal) → JVal
mutual
/-- Decidable structural equality on `JVal`. -/
def jvalDecEq : (a b : JVal) → Decidable (a = b)
  | .jnull, .jnull => .isTrue rfl
  | .jnull, .jbool _ => .isFalse (fun h => JVal.noConfusion h)
  | .jnull, .jnum _ => .isFalse (fun h => JVal.noConfusion h)
  | .jnull, .jstr _ => .isFalse (fun h => JVal.noConfusion h)
  | .jnull, .jarr _ => .isFalse (fun h => JVal.noConfusion h)
  | .jnull, .jobj _ => .isFalse (fun h => JVal.noConfusion h)
  | .jbool _, .jnull => .isFalse (fun h => JVal.noConfusion h)
  | .jbool _, .jnum _ => .isFalse (fun h => JVal.noConfusion h)
  | .jbool _, .jstr _ => .isFalse (fun h => JVal.noConfusion h)
  | .jbool _, .jarr _ => .isFalse (fun h => JVal.noConfusion h)
  | .jbool _, .jobj _ => .isFalse (fun h => JVal.noConfusion h)
  | .jnum _, .jnull => .isFalse (fun h => JVal.noConfusion h)
  | .jnum _, .jbool _ => .isFalse (fun h => JVal.noConfusion h)
  | .jnum _, .jstr _ => .isFalse (fun h => JVal.noConfusion h)
  | .jnum _, .jarr _ => .isFalse (fun h => JVal.noConfusion h)
  | .jnum _, .jobj _ => .isFalse (fun h => JVal.noConfusion h)
  | .jstr _, .jnull => .isFalse (fun h => JVal.noConfusion h)
  | .jstr _, .jbool _ => .isFalse (fun h => JVal.noConfusion h)
  | .jstr _, .jnum _ => .isFalse (fun h => JVal.noConfusion h)
  | .jstr _, .jarr _ => .isFalse (fun h => JVal.noConfusion h)
  | .jstr _, .jobj _ => .isFalse (fun h => JVal.noConfusion h)
  | .jarr _, .jnull => .isFalse (fun h => JVal.noConfusion h)
  | .jarr _, .jbool _ => .isFalse (fun h => JVal.noConfusion h)
  | .jarr _, .jnum _ => .isFalse (fun h => JVal.noConfusion h)
  | .jarr _, .jstr _ => .isFalse (fun h => JVal.noConfusion h)
  | .jarr _, .jobj _ => .isFalse (fun h => JVal.noConfusion h)
  | .jobj _, .jnull => .isFalse (fun h => JVal.noConfusion h)
  | .jobj _, .jbool _ => .isFalse (fun h => JVal.noConfusion h)
  | .jobj _, .jnum _ => .isFalse (fun h => JVal.noConfusion h)
  | .jobj _, .jstr _ => .isFalse (fun h => JVal.noConfusion h)
  | .jobj _, .jarr _ => .isFalse (fun h => JVal.noConfusion h)
  | .jbool a, .jbool b =>
      if h : a = b then .isTrue (h ▸ rfl)
      else .isFalse (fun hh => h (JVal.jbool.inj hh))
  | .jnum a, .jnum b =>
      if h : a = b then .isTrue (h ▸ rfl)
      else .isFalse (fun hh => h (JVal.jnum.inj hh))
  | .jstr a, .jstr b =>
      if h : a = b then .isTrue (h ▸ rfl)
      else .isFalse (fun hh => h (JVal.jstr.inj hh))
  | .jarr a, .jarr b =>
      match jvalListDecEq a b with
      | .isTrue h => .isTrue (h ▸ rfl)
      | .isFalse h => .isFalse (fun hh => h (JVal.jarr.inj hh))
  | .jobj a, .jobj b =>
      match jvalFieldsDecEq a b with
      | .isTrue h => .isTrue (h ▸ rfl)
      | .isFalse h => .isFalse (fun hh => h (JVal.jobj.inj hh))

/-- Decidable equality of `JVal` lists. -/
def jvalListDecEq : (a b : List JVal) → Decidable (a = b)
  | [], [] => .isTrue rfl
  | [], _ :: _ => .isFalse (fun h => List.noConfusion h)
  | _ :: _, [] => .isFalse (fun h => List.noConfusion h)
  | a :: as, b :: bs =>
      match jvalDecEq a b with
      | .isFalse h => .isFalse (fun hh => h (List.cons.inj hh).1)
      | .isTrue h1 =>
          match jvalListDecEq as bs with
          | .isTrue h2 => .isTrue (h1 ▸ h2 ▸ rfl)
          | .isFalse h2 => .isFalse (fun hh => h2 (List.cons.inj hh).2)

/-- Decidable equality of `JVal` association lists. -/
def jvalFieldsDecEq : (a b : List (String × JVal)) → Decidable (a = b)
  | [], [] => .isTrue rfl
  | [], _ :: _ => .isFalse (fun h => List.noConfusion h)
  | _ :: _, [] => .isFalse (fun h => List.noConfusion h)
  | (k1, v1) :: as, (k2, v2) :: bs =>
      if hk : k1 = k2 then
        match jvalDecEq v1 v2 with
        | .isFalse h => .isFalse (fun hh => h (Prod.mk.inj (List.cons.inj hh).1).2)
        | .isTrue h1 =>
            match jvalFieldsDecEq as bs with
            | .isTrue h2 => .isTrue (hk ▸ h1 ▸ h2 ▸ rfl)
            | .isFalse h2 => .isFalse (fun hh => h2 (List.cons.inj hh).2)
      else .isFalse (fun hh => hk (Prod.mk.inj (List.cons.inj hh).1).1)
end

instance : DecidableEq JVal := jvalDecEq

/-- Python truthiness: `None`, `False`, `0`, `""`, `[]`, and the empty dict
are falsy; everything else is truthy. -/
def pyTruthy : JVal → Bool
  | .jnull => false
  | .jbool b => b
  | .jnum n => n != 0
  | .jstr s => s ≠ ""
  | .jarr [] => false
  | .jarr (_ :: _) => true
  | .jobj [] => false
  | .jobj (_ :: _) => true

/-- Python `a or b`: `a` if truthy, else `b`. -/
def pyOr (a b : JVal) : JVal := if pyTruthy a then a else b

mutual
/-- Python `str(v)`.  For strings this is the identity; containers render
through `repr` of their elements.  (Quote-escaping inside `repr` of strings
is simplified; no claim evaluates `str` on a container.) -/
def pyStr : JVal → String
  | .jnull => "None"
  | .jbool true => "True"
  | .jbool false => "False"
  | .jnum n => toString n
  | .jstr s => s
  | .jarr xs => "[" ++ pyReprSeq xs ++ "]"
  | .jobj fs => "\x7b" ++ pyReprFields fs ++ "\x7d"

/-- Python `repr(v)` (strings quoted), used for container elements. -/
def pyRepr : JVal → String
  | .jnull => "None"
  | .jbool true => "True"
  | .jbool false => "False"
  | .jnum n => toString n
  | .jstr s => "\x27" ++ s ++ "\x27"
  | .jarr xs => "[" ++ pyReprSeq xs ++ "]"
  | .jobj fs => "\x7b" ++ pyReprFields fs ++ "\x7d"

/-- Comma-separated `repr`s of a list's elements. -/
def pyReprSeq : List JVal → String
  | [] => ""
  | [v] => pyRepr v
  | v :: rest => pyRepr v ++ ", " ++ pyReprSeq rest

/-- Comma-separated `'key': repr(value)` renderings of a dict's fields. -/
def pyReprFields : List (String × JVal) → String
  | [] => ""
  | [(k, v)] => "\x27" ++ k ++ "\x27: " ++ pyRepr v
  | (k, v) :: rest => "\x27" ++ k ++ "\x27: " ++ pyRepr v ++ ", " ++ pyReprFields rest
end

/-- Python `str.strip()` whitespace test (ASCII whitespace; the exotic
Unicode spaces Python also strips do not occur in the claims). -/
def isPyWS (c : Char) : Bool :=
  c = ' ' || c = '\t' || c = '\n' || c = '\x0d' || c = '\x0b' || c = '\x0c'

/-- Drop leading whitespace characters. -/
def dropLeadingWS : List Char → List Char
  | [] => []
  | c :: rest => if isPyWS c then dropLeadingWS rest else c :: rest

/-- Python `s.strip()`: remove leading and trailing whitespace. -/
def pyStrip (s : String) : String :=
  String.mk ((dropLeadingWS (dropLeadingWS s.data.reverse).reverse))

/-- First-match lookup in a Python dict modelled as an association list
(dicts built by `json.loads` have unique keys). -/
def lookupField : List (String × JVal) → String → Option JVal
  | [], _ => none
  | (k0, v0) :: rest, k => if k0 = k then some v0 else lookupField rest k

/-- Python `item.get(k)` on a dict: the stored value, or `None` if absent. -/
def jget (fs : List (String × JVal)) (k : String) : JVal :=
  match lookupField fs k with
  | some v => v
  | none => .jnull

/-- Python `d[k] = v` on a dict: overwrite in place if the key exists
(position preserved), else append the new pair at the end. -/
def setField (fs : List (String × JVal)) (k : String) (v : JVal) : List (String × JVal) :=
  match fs with
  | [] => [(k, v)]
  | (k0, v0) :: rest => if k0 = k then (k0, v) :: rest else (k0, v0) :: setField rest k v

/-- Python `d.setdefault(k, v)` restricted to its effect on the dict:
insert `(k, v)` at the end if `k` is absent, else leave the dict alone. -/
def setdefaultField (fs : List (String × JVal)) (k : String) (v : JVal) : List (String × JVal) :=
  match lookupField fs k with
  | some _ => fs
  | none => fs ++ [(k, v)]

/-! ## newsdata_client.py: article_key (lines 113-125) -/

/-- `str(item.get("article_id") or "").strip()` -/
def idNorm (fs : List (String × JVal)) : String :=
  pyStrip (pyStr (pyOr (jget fs "article_id") (.jstr "")))

/-- `str(item.get("link") or "").strip()` -/
def linkNorm (fs : List (String × JVal)) : String :=
  pyStrip (pyStr (pyOr (jget fs "link") (.jstr "")))

/-- `str(item.get("title") or "").strip()` -/
def titleNorm (fs : List (String × JVal)) : String :=
  pyStrip (pyStr (pyOr (jget fs "title") (.jstr "")))

/-- `str(item.get("pubDate") or item.get("published_at") or "").strip()` -/
def pubNorm (fs : List (String × JVal)) : String :=
  pyStrip (pyStr (pyOr (jget fs "pubDate") (pyOr (jget fs "published_at") (.jstr ""))))

/-- `str(item.get("source_id") or item.get("source_name") or "").strip()` -/
def sourceNorm (fs : List (String × JVal)) : String :=
  pyStrip (pyStr (pyOr (jget fs "source_id") (pyOr (jget fs "source_name") (.jstr ""))))

/-- `article_key` on a dict item (the `item.get` calls all succeed):
tiered derivation with `id:`, `link:` and `fallback:` namespaces. -/
def article_key_obj (fs : List (String × JVal)) : String :=
  if idNorm fs ≠ "" then "id:" ++ idNorm fs
  else if linkNorm fs ≠ "" then "link:" ++ linkNorm fs
  else "fallback:" ++ titleNorm fs ++ "|" ++ pubNorm fs ++ "|" ++ sourceNorm fs

/-- `article_key(item)` for an arbitrary value: on a non-dict, the very
first `item.get("article_id")` raises `AttributeError` (only dicts have
`.get`), which is modelled as an error. -/
def article_key : JVal → Except String String
  | .jobj fs => .ok (article_key_obj fs)
  | _ => .error "AttributeError: object has no attribute get"

/-- Which branch of `article_key_obj` fires: 0 = external-identifier rule,
1 = link rule, 2 = composite-fallback rule. -/
def keyTier (fs : List (String × JVal)) : Nat :=
  if idNorm fs ≠ "" then 0
  else if linkNorm fs ≠ "" then 1
  else 2

/-! ## newsdata_client.py: load_dump (lines 57-103) -/

/-- The relevant state of the dump file when `load_dump` runs: absent,
present with only whitespace, present but not parseable as JSON, or
parseable with a given top-level JSON value. -/
inductive FileState where
  | missing : FileState
  | empty : FileState
  | invalid : FileState
  | parsed : JVal → FileState

/-- The freshly initialized store returned for a missing or empty file. -/
def freshDump : JVal :=
  .jobj [("schema_version", .jstr "1.0"), ("updated_at", .jnull),
         ("articles", .jarr []), ("requests", .jarr [])]

/-- `isinstance(v, list)` -/
def isJList : JVal → Bool
  | .jarr _ => true
  | _ => false

/-- Lines 98-101: `if not isinstance(data[k], list): data[k] = []`. -/
def coerceListField (k : String) (fs : List (String × JVal)) : List (String × JVal) :=
  if isJList (jget fs k) then fs else setField fs k (.jarr [])

/-- Lines 93-101 on a top-level JSON object: the four `setdefault` calls
followed by the two list coercions, in source order. -/
def normDumpObj (gs : List (String × JVal)) : List (String × JVal) :=
  coerceListField "requests" (coerceListField "articles"
    (setdefaultField (setdefaultField (setdefaultField (setdefaultField gs
      "schema_version" (.jstr "1.0")) "updated_at" .jnull) "articles" (.jarr []))
      "requests" (.jarr [])))

/-- `load_dump(path)`: the pure content of lines 57-103 over the file
state.  `sys.exit(1)` branches become errors carrying the message printed
to stderr; the error paths return before any store value exists, so no
store state is produced (let alone mutated) there. -/
def load_dump : FileState → Except String JVal
  | .missing => .ok freshDump
  | .empty => .ok freshDump
  | .invalid => .error "Failed to read or parse"
  | .parsed (.jarr xs) =>
      .ok (.jobj [("schema_version", .jstr "1.0"), ("updated_at", .jnull),
                  ("articles", .jarr xs), ("requests", .jarr [])])
  | .parsed (.jobj fs) => .ok (.jobj (normDumpObj fs))
  | .parsed _ => .error "Unexpected JSON format"

/-! ## newsdata_client.py: the merge in main (lines 180-225) -/

/-- The store document as guaranteed by `load_dump`: the four fields the
merge manipulates, with `articles` and `requests` known to be lists. -/
structure Store where
  schema_version : JVal
  updated_at : JVal
  articles : List JVal
  requests : List JVal
deriving DecidableEq

/-- The per-run inputs of the merge other than the store and the results
list: the parsed command-line arguments used to build `params`, the
response metadata fields read by `main`, and the run timestamp. -/
structure MergeCtx where
  query : JVal
  category : String
  country : String
  language : String
  size : Int
  page : JVal
  status : JVal
  totalResults : JVal
  nextPage : JVal
  fetchedAt : String
deriving DecidableEq

/-- The dict stored under `"query_params"` on each added item and under
`"params"` in the request-audit record (lines 194-201 and 210-217). -/
def paramsObj (c : MergeCtx) : JVal :=
  .jobj [("query", c.query), ("category", .jstr c.category), ("country", .jstr c.country),
         ("language", .jstr c.language), ("size", .jnum c.size), ("page", c.page)]

/-- The request-audit record appended at lines 207-225. -/
def requestRecord (c : MergeCtx) (resultsCount added skipped : Nat) : JVal :=
  .jobj [("fetched_at", .jstr c.fetchedAt), ("params", paramsObj c), ("status", c.status),
         ("total_results", c.totalResults), ("results_count", .jnum resultsCount),
         ("next_page", c.nextPage), ("added", .jnum added), ("skipped", .jnum skipped)]

/-- Lines 193-201: `item["fetched_at"] = fetched_at` and
`item["query_params"] = ...`; item assignment on a non-dict raises
`TypeError`. -/
def stampItem (c : MergeCtx) : JVal → Except String JVal
  | .jobj fs =>
      .ok (.jobj (setField (setField fs "fetched_at" (.jstr c.fetchedAt))
                    "query_params" (paramsObj c)))
  | _ => .error "TypeError: item does not support item assignment"

/-- Lines 180-182: seed the seen-key set with the key of every article
already in the dump (list of keys; only membership is ever used, so a
list models the Python set faithfully). -/
def seedKeys : List JVal → Except String (List String)
  | [] => .ok []
  | a :: rest =>
      match article_key a with
      | .error e => .error e
      | .ok k =>
          match seedKeys rest with
          | .error e => .error e
          | .ok ks => .ok (k :: ks)

/-- Running state of the merge loop: the articles list being appended to,
the seen-key set, and the two counters. -/
structure MergeState where
  articles : List JVal
  seen : List String
  added : Nat
  skipped : Nat
deriving DecidableEq

/-- Lines 188-204: the per-item merge loop. -/
def mergeLoop (c : MergeCtx) (st : MergeState) : List JVal → Except String MergeState
  | [] => .ok st
  | item :: rest =>
      match article_key item with
      | .error e => .error e
      | .ok key =>
          if key ∈ st.seen then
            mergeLoop c { st with skipped := st.skipped + 1 } rest
          else
            match stampItem c item with
            | .error e => .error e
            | .ok stamped =>
                mergeLoop c { articles := st.articles ++ [stamped], seen := st.seen ++ [key],
                              added := st.added + 1, skipped := st.skipped } rest

/-- Lines 180-225 of `main`: seed the seen-key set from the loaded store,
run the merge loop over the fetched results, set `updated_at`, and append
the request-audit record.  Returns the updated store together with the
final `added` and `skipped` counters. -/
def mergeResults (c : MergeCtx) (s : Store) (results : List JVal) :
    Except String (Store × Nat × Nat) :=
  match seedKeys s.articles with
  | .error e => .error e
  | .ok seen =>
      match mergeLoop c ⟨s.articles, seen, 0, 0⟩ results with
      | .error e => .error e
      | .ok st =>
          .ok ({ schema_version := s.schema_version,
                 updated_at := .jstr c.fetchedAt,
                 articles := st.articles,
                 requests := s.requests ++ [requestRecord c results.length st.added st.skipped] },
               st.added, st.skipped)

/-- `stampItem` mapped over a list (used to describe the records a merge
appends, in order). -/
def stampAll (c : MergeCtx) : List JVal → Except String (List JVal)
  | [] => .ok []
  | a :: rest =>
      match stampItem c a with
      | .error e => .error e
      | .ok v =>
          match stampAll c rest with
          | .error e => .error e
          | .ok vs => .ok (v :: vs)

/-! ## rss_openai_digest.py: dict/index primitives -/

/-- Python `item[k]` on a value: `KeyError` if the key is absent,
`TypeError` if the value is not a dict. -/
def jIndex : JVal → String → Except String JVal
  | .jobj fs, k =>
      match lookupField fs k with
      | some v => .ok v
      | none => .error "KeyError"
  | _, _ => .error "TypeError: value is not subscriptable"

/-- Python `v.get(k)` on a value: `None` default on a dict,
`AttributeError` otherwise. -/
def jgetE : JVal → String → Except String JVal
  | .jobj fs, k => .ok (jget fs k)
  | _, _ => .error "AttributeError: object has no attribute get"

/-- Python iteration `for x in v`: lists yield their elements, strings
their characters, dicts their keys; other values raise `TypeError`. -/
def pyIter : JVal → Except String (List JVal)
  | .jarr xs => .ok xs
  | .jstr s => .ok (s.data.map fun c => .jstr (String.mk [c]))
  | .jobj fs => .ok (fs.map fun p => .jstr p.1)
  | _ => .error "TypeError: value is not iterable"

/-- Python hashability of the values of this model: `None`, booleans,
numbers and strings are hashable; lists and dicts are not, and using one
as a dict key raises `TypeError: unhashable type`. -/
def pyHashable : JVal → Bool
  | .jarr _ => false
  | .jobj _ => false
  | _ => true

/-- First-match lookup in a dict with `JVal` keys (Python dict `get`
returning an `Option`; the caller checks hashability first, as Python
does when it hashes the key). -/
def assocGet : List (JVal × JVal) → JVal → Option JVal
  | [], _ => none
  | (k0, v0) :: rest, k => if k0 = k then some v0 else assocGet rest k

/-- `m[k] = v` on a dict with `JVal` keys: overwrite in place, else
append. -/
def assocSet (m : List (JVal × JVal)) (k : JVal) (v : JVal) : List (JVal × JVal) :=
  match m with
  | [] => [(k, v)]
  | (k0, v0) :: rest => if k0 = k then (k0, v) :: rest else (k0, v0) :: assocSet rest k v

/-! ## rss_openai_digest.py: summarization augmentation (main, lines 329-339) -/

/-- Lines 330-333: build `mapping` from the response's `items`, keyed by
each result item's truthy `id`.  The assignment `mapping[item_key] = ...`
hashes the key, so a truthy unhashable key (a list or dict) raises
`TypeError` exactly where Python does. -/
def buildMappingAux (m : List (JVal × JVal)) : List JVal → Except String (List (JVal × JVal))
  | [] => .ok m
  | ri :: rest =>
      match jgetE ri "id" with
      | .error e => .error e
      | .ok key =>
          if pyTruthy key then
            if pyHashable key then buildMappingAux (assocSet m key ri) rest
            else .error "TypeError: unhashable type"
          else buildMappingAux m rest

/-- The `mapping` dict of lines 329-333, starting empty. -/
def buildMapping (ris : List JVal) : Except String (List (JVal × JVal)) :=
  buildMappingAux [] ris

/-- Lines 335-339 for one item: look its `id` up in `mapping` and, when a
truthy entry exists, set `ai_summary` and `ai_tags` on the item.
`mapping.get(item["id"])` hashes the id, so an unhashable id raises
`TypeError` exactly where Python does. -/
def augmentItem (mapping : List (JVal × JVal)) (item : JVal) : Except String JVal :=
  match jIndex item "id" with
  | .error e => .error e
  | .ok idv =>
      if pyHashable idv then
        match assocGet mapping idv with
        | none => .ok item
        | some ai =>
            if pyTruthy ai then
              match jgetE ai "summary" with
              | .error e => .error e
              | .ok summary =>
                  match jgetE ai "tags" with
                  | .error e => .error e
                  | .ok tags =>
                      match item with
                      | .jobj fs =>
                          .ok (.jobj (setField (setField fs "ai_summary" summary)
                                "ai_tags" (pyOr tags (.jarr []))))
                      | _ => .error "TypeError: item does not support item assignment"
            else .ok item
      else .error "TypeError: unhashable type"

/-- The `for item in items` loop of lines 335-339 over the whole list. -/
def augmentAll (mapping : List (JVal × JVal)) : List JVal → Except String (List JVal)
  | [] => .ok []
  | it :: rest =>
      match augmentItem mapping it with
      | .error e => .error e
      | .ok v =>
          match augmentAll mapping rest with
          | .error e => .error e
          | .ok vs => .ok (v :: vs)

/-- Lines 329-339 of `rss_openai_digest.main`: given the deduplicated
items and the parsed model response, build the id-keyed mapping from
`parsed.get("items") or []` and attach `ai_summary`/`ai_tags` to every
item whose id the mapping covers. -/
def summarize_merge (items : List JVal) (parsed : JVal) : Except String (List JVal) :=
  match jgetE parsed "items" with
  | .error e => .error e
  | .ok itemsv =>
      match pyIter (pyOr itemsv (.jarr [])) with
      | .error e => .error e
      | .ok ris =>
          match buildMappingAux [] ris with
          | .error e => .error e
          | .ok mapping => augmentAll mapping items

/-! ## rss_openai_digest.py: within-run dedupe (main, lines 298-304) -/

/-- Line 299: `dedupe_key = item["link"] or item["title"] or item["id"]`,
with Python's lazy `or` (later subscripts are evaluated only when the
earlier ones are falsy). -/
def dedupeKey (item : JVal) : Except String JVal :=
  match jIndex item "link" with
  | .error e => .error e
  | .ok l =>
      if pyTruthy l then .ok l
      else
        match jIndex item "title" with
        | .error e => .error e
        | .ok t =>
            if pyTruthy t then .ok t
            else jIndex item "id"

/-- Lines 298-304: the within-run dedupe loop over the fetched items (the
surrounding per-feed loop only concatenates the per-feed item lists, so
one pass over the concatenation is the same computation).  `seen` is the
run-local set, `acc` the output list `items`. -/
def dedupeLoop (fetchedAt : String) (seen : List JVal) (acc : List JVal) :
    List JVal → Except String (List JVal)
  | [] => .ok acc
  | item :: rest =>
      match dedupeKey item with
      | .error e => .error e
      | .ok key =>
          if key ∈ seen then dedupeLoop fetchedAt seen acc rest
          else
            match item with
            | .jobj fs =>
                dedupeLoop fetchedAt (seen ++ [key])
                  (acc ++ [.jobj (setField fs "fetched_at" (.jstr fetchedAt))]) rest
            | _ => .error "TypeError: item does not support item assignment"

/-- The ids the parsed response's items array covers: some response entry
is a dict whose `id` field is truthy and equals the given id.  (Exactly
these ids end up as keys of the `mapping` dict of lines 329-333.) -/
def respCovers (ris : List JVal) (idv : JVal) : Prop :=
  ∃ gs : List (String × JVal), .jobj gs ∈ ris ∧ pyTruthy (jget gs "id") = true ∧
    jget gs "id" = idv

/-- A concrete merge context used by the witnesses. -/
def cW : MergeCtx :=
  ⟨.jnull, "top", "us", "en", 1, .jnull, .jstr "success", .jnum 10, .jnull,
   "2026-01-01T00:00:00Z"⟩

/-! ## Association-list lemmas -/

theorem lookupField_setField_self (fs : List (String × JVal)) (k : String) (v : JVal) :
    lookupField (setField fs k v) k = some v := by
  induction fs with
  | nil => simp [setField, lookupField]
  | cons p rest ih =>
      obtain ⟨k0, v0⟩ := p
      by_cases h : k0 = k
      · simp [setField, h, lookupField]
      · simp [setField, h, lookupField, ih]

theorem lookupField_setField_ne (fs : List (String × JVal)) (k : String) (v : JVal)
    (k' : String) (h : k' ≠ k) :
    lookupField (setField fs k v) k' = lookupField fs k' := by
  induction fs with
  | nil => simp [setField, lookupField, Ne.symm h]
  | cons p rest ih =>
      obtain ⟨k0, v0⟩ := p
      by_cases h0 : k0 = k
      · subst h0
        simp [setField, lookupField, Ne.symm h]
      · simp [setField, h0, lookupField, ih]

theorem jget_setField_ne (fs : List (String × JVal)) (k : String) (v : JVal)
    (k' : String) (h : k' ≠ k) :
    jget (setField fs k v) k' = jget fs k' := by
  simp [jget, lookupField_setField_ne fs k v k' h]

theorem jget_setField_self (fs : List (String × JVal)) (k : String) (v : JVal) :
    jget (setField fs k v) k = v := by
  simp [jget, lookupField_setField_self]

theorem lookupField_append_none (fs : List (String × JVal)) (k : String) (v : JVal)
    (h : lookupField fs k = none) :
    lookupField (fs ++ [(k, v)]) k = some v := by
  induction fs with
  | nil => simp [lookupField]
  | cons p rest ih =>
      obtain ⟨k0, v0⟩ := p
      by_cases h0 : k0 = k
      · simp [lookupField, h0] at h
      · simp [lookupField, h0] at h ⊢
        exact ih h

theorem lookupField_append_ne (fs : List (String × JVal)) (k : String) (v : JVal)
    (k' : String) (h : k' ≠ k) :
    lookupField (fs ++ [(k, v)]) k' = lookupField fs k' := by
  induction fs with
  | nil => simp [lookupField, Ne.symm h]
  | cons p rest ih =>
      obtain ⟨k0, v0⟩ := p
      by_cases h0 : k0 = k'
      · simp [lookupField, h0]
      · simp [lookupField, h0, ih]

theorem lookupField_setdefault_self (fs : List (String × JVal)) (k : String) (v : JVal) :
    lookupField (setdefaultField fs k v) k = some ((lookupField fs k).getD v) := by
  unfold setdefaultField
  cases h : lookupField fs k with
  | some w => simp [h]
  | none => simp [h, lookupField_append_none fs k v h]

theorem lookupField_setdefault_ne (fs : List (String × JVal)) (k : String) (v : JVal)
    (k' : String) (h : k' ≠ k) :
    lookupField (setdefaultField fs k v) k' = lookupField fs k' := by
  unfold setdefaultField
  cases hl : lookupField fs k with
  | some w => simp
  | none => simp [lookupField_append_ne fs k v k' h]

/-! ## article_key lemmas -/

theorem article_key_obj_id (fs : List (String × JVal)) (h : idNorm fs ≠ "") :
    article_key_obj fs = "id:" ++ idNorm fs := by
  simp [article_key_obj, h]

theorem article_key_obj_link (fs : List (String × JVal)) (h1 : idNorm fs = "")
    (h2 : linkNorm fs ≠ "") :
    article_key_obj fs = "link:" ++ linkNorm fs := by
  simp [article_key_obj, h1, h2]

theorem article_key_obj_fb (fs : List (String × JVal)) (h1 : idNorm fs = "")
    (h2 : linkNorm fs = "") :
    article_key_obj fs = "fallback:" ++ titleNorm fs ++ "|" ++ pubNorm fs ++ "|" ++ sourceNorm fs := by
  simp [article_key_obj, h1, h2]

theorem key_id_ne_link (a b : String) : "id:" ++ a ≠ "link:" ++ b := by
  intro h
  have h2 := congrArg String.data h
  simp [String.data_append] at h2

theorem key_id_ne_fb (a t p s : String) :
    "id:" ++ a ≠ "fallback:" ++ t ++ "|" ++ p ++ "|" ++ s := by
  intro h
  have h2 := congrArg String.data h
  simp [String.data_append] at h2

theorem key_link_ne_fb (a t p s : String) :
    "link:" ++ a ≠ "fallback:" ++ t ++ "|" ++ p ++ "|" ++ s := by
  intro h
  have h2 := congrArg String.data h
  simp [String.data_append] at h2

theorem idNorm_setField (fs : List (String × JVal)) (k : String) (v : JVal)
    (h : k ≠ "article_id") : idNorm (setField fs k v) = idNorm fs := by
  simp [idNorm, jget_setField_ne fs k v _ (Ne.symm h)]

theorem linkNorm_setField (fs : List (String × JVal)) (k : String) (v : JVal)
    (h : k ≠ "link") : linkNorm (setField fs k v) = linkNorm fs := by
  simp [linkNorm, jget_setField_ne fs k v _ (Ne.symm h)]

theorem titleNorm_setField (fs : List (String × JVal)) (k : String) (v : JVal)
    (h : k ≠ "title") : titleNorm (setField fs k v) = titleNorm fs := by
  simp [titleNorm, jget_setField_ne fs k v _ (Ne.symm h)]

theorem pubNorm_setField (fs : List (String × JVal)) (k : String) (v : JVal)
    (h1 : k ≠ "pubDate") (h2 : k ≠ "published_at") :
    pubNorm (setField fs k v) = pubNorm fs := by
  simp [pubNorm, jget_setField_ne fs k v _ (Ne.symm h1), jget_setField_ne fs k v _ (Ne.symm h2)]

theorem sourceNorm_setField (fs : List (String × JVal)) (k : String) (v : JVal)
    (h1 : k ≠ "source_id") (h2 : k ≠ "source_name") :
    sourceNorm (setField fs k v) = sourceNorm fs := by
  simp [sourceNorm, jget_setField_ne fs k v _ (Ne.symm h1), jget_setField_ne fs k v _ (Ne.symm h2)]

theorem article_key_obj_setField (fs : List (String × JVal)) (k : String) (v : JVal)
    (h1 : k ≠ "article_id") (h2 : k ≠ "link") (h3 : k ≠ "title") (h4 : k ≠ "pubDate")
    (h5 : k ≠ "published_at") (h6 : k ≠ "source_id") (h7 : k ≠ "source_name") :
    article_key_obj (setField fs k v) = article_key_obj fs := by
  simp [article_key_obj, idNorm_setField fs k v h1, linkNorm_setField fs k v h2,
    titleNorm_setField fs k v h3, pubNorm_setField fs k v h4 h5, sourceNorm_setField fs k v h6 h7]

/-- Stamping an item with `fetched_at` and `query_params` never changes
its identity key. -/
theorem article_key_stampItem (c : MergeCtx) (item v : JVal)
    (h : stampItem c item = .ok v) : article_key v = article_key item := by
  cases item with
  | jobj fs =>
      simp [stampItem] at h
      subst h
      simp [article_key]
      rw [article_key_obj_setField _ _ _ (by decide) (by decide) (by decide) (by decide)
        (by decide) (by decide) (by decide)]
      rw [article_key_obj_setField _ _ _ (by decide) (by decide) (by decide) (by decide)
        (by decide) (by decide) (by decide)]
  | jnull => simp [stampItem] at h
  | jbool b => simp [stampItem] at h
  | jnum n => simp [stampItem] at h
  | jstr s => simp [stampItem] at h
  | jarr xs => simp [stampItem] at h

/-! ## Merge-loop lemmas -/

theorem seedKeys_append (l1 l2 : List JVal) (ks1 ks2 : List String)
    (h1 : seedKeys l1 = .ok ks1) (h2 : seedKeys l2 = .ok ks2) :
    seedKeys (l1 ++ l2) = .ok (ks1 ++ ks2) := by
  induction l1 generalizing ks1 with
  | nil =>
      simp [seedKeys] at h1
      subst h1
      simpa using h2
  | cons a rest ih =>
      cases hk : article_key a with
      | error e => simp [seedKeys, hk] at h1
      | ok k =>
          cases hrest : seedKeys rest with
          | error e => simp [seedKeys, hk, hrest] at h1
          | ok ks =>
              simp [seedKeys, hk, hrest] at h1
              subst h1
              simp [seedKeys, hk, ih ks hrest]

theorem seedKeys_stampAll (c : MergeCtx) (sel stamped : List JVal) (keys : List String)
    (hs : stampAll c sel = .ok stamped) (hk : seedKeys sel = .ok keys) :
    seedKeys stamped = .ok keys := by
  induction sel generalizing stamped keys with
  | nil =>
      simp [stampAll] at hs
      simp [seedKeys] at hk
      subst hs
      subst hk
      simp [seedKeys]
  | cons a rest ih =>
      cases hsa : stampItem c a with
      | error e => simp [stampAll, hsa] at hs
      | ok v =>
          cases hsr : stampAll c rest with
          | error e => simp [stampAll, hsa, hsr] at hs
          | ok vs =>
              cases hka : article_key a with
              | error e => simp [seedKeys, hka] at hk
              | ok k =>
                  cases hkr : seedKeys rest with
                  | error e => simp [seedKeys, hka, hkr] at hk
                  | ok ks =>
                      simp [stampAll, hsa, hsr] at hs
                      simp [seedKeys, hka, hkr] at hk
                      subst hs
                      subst hk
                      simp [seedKeys, article_key_stampItem c a v hsa, hka, ih vs ks hsr hkr]

theorem mergeLoop_spec (c : MergeCtx) (results : List JVal) :
    ∀ (st st' : MergeState), mergeLoop c st results = .ok st' →
    ∃ sel stamped keys,
      List.Sublist sel results ∧
      stampAll c sel = .ok stamped ∧
      seedKeys sel = .ok keys ∧
      st'.articles = st.articles ++ stamped ∧
      st'.seen = st.seen ++ keys ∧
      keys.Nodup ∧
      (∀ k ∈ keys, k ∉ st.seen) ∧
      st'.added = st.added + sel.length ∧
      st'.skipped + sel.length = st.skipped + results.length ∧
      (∀ r ∈ results, ∃ kk, article_key r = .ok kk ∧ kk ∈ st'.seen) := by
  induction results with
  | nil =>
      intro st st' h
      simp [mergeLoop] at h
      subst h
      exact ⟨[], [], [], List.nil_sublist _, rfl, rfl, by simp, by simp, by simp, by simp,
        by simp, by simp, by simp⟩
  | cons item rest ih =>
      intro st st' h
      cases hk : article_key item with
      | error e => simp [mergeLoop, hk] at h
      | ok key =>
          by_cases hmem : key ∈ st.seen
          · rw [mergeLoop, hk] at h
            simp only [hmem, if_true] at h
            obtain ⟨sel, stamped, keys, hsub, hstamp, hkeys, hart, hseen, hnd, hfresh, hadd,
              hskip, hall⟩ := ih _ _ h
            refine ⟨sel, stamped, keys, hsub.cons item, hstamp, hkeys, by simpa using hart,
              by simpa using hseen, hnd, fun k hkm => hfresh k hkm, by simpa using hadd,
              ?_, ?_⟩
            · simp at hskip
              simp [Nat.add_comm]
              omega
            · intro r hr
              rcases List.mem_cons.mp hr with hr | hr
              · subst hr
                exact ⟨key, hk, by rw [hseen]; exact List.mem_append_left _ hmem⟩
              · exact hall r hr
          · rw [mergeLoop, hk] at h
            simp only [hmem, if_false] at h
            cases hs : stampItem c item with
            | error e => rw [hs] at h; simp at h
            | ok stamped0 =>
                rw [hs] at h
                simp only [] at h
                obtain ⟨sel, stamped, keys, hsub, hstamp, hkeys, hart, hseen, hnd, hfresh,
                  hadd, hskip, hall⟩ := ih _ _ h
                refine ⟨item :: sel, stamped0 :: stamped, key :: keys, hsub.cons₂ item,
                  ?_, ?_, ?_, ?_, ?_, ?_, ?_, ?_, ?_⟩
                · simp [stampAll, hs, hstamp]
                · simp [seedKeys, hk, hkeys]
                · simp at hart
                  simp [hart]
                · simp at hseen
                  simp [hseen]
                · refine List.nodup_cons.mpr ⟨?_, hnd⟩
                  intro hkin
                  have := hfresh key hkin
                  simp at this
                · intro k hkm
                  rcases List.mem_cons.mp hkm with hkm | hkm
                  · subst hkm; exact hmem
                  · intro hin
                    exact hfresh k hkm (by simp [hin])
                · simp at hadd
                  simp [hadd]
                  omega
                · simp at hskip
                  simp
                  omega
                · intro r hr
                  rcases List.mem_cons.mp hr with hr | hr
                  · subst hr
                    refine ⟨key, hk, ?_⟩
                    rw [hseen]
                    simp
                  · exact hall r hr

theorem mergeLoop_allSkip (c : MergeCtx) (results : List JVal) :
    ∀ (st : MergeState),
    (∀ r ∈ results, ∃ k, article_key r = .ok k ∧ k ∈ st.seen) →
    mergeLoop c st results = .ok { st with skipped := st.skipped + results.length } := by
  induction results with
  | nil => intro st _; simp [mergeLoop]
  | cons item rest ih =>
      intro st hall
      obtain ⟨key, hk, hmem⟩ := hall item (by simp)
      rw [mergeLoop, hk]
      simp only [hmem, if_true]
      have hrec := ih { st with skipped := st.skipped + 1 }
        (fun r hr => hall r (List.mem_cons_of_mem _ hr))
      rw [hrec]
      simp [MergeState.mk.injEq]
      omega

theorem mergeResults_inv (c : MergeCtx) (s : Store) (results : List JVal)
    (s' : Store) (a k : Nat) (h : mergeResults c s results = .ok (s', a, k)) :
    ∃ seen0 st, seedKeys s.articles = .ok seen0 ∧
      mergeLoop c ⟨s.articles, seen0, 0, 0⟩ results = .ok st ∧
      s' = { schema_version := s.schema_version, updated_at := .jstr c.fetchedAt,
             articles := st.articles,
             requests := s.requests ++ [requestRecord c results.length st.added st.skipped] } ∧
      a = st.added ∧ k = st.skipped := by
  unfold mergeResults at h
  split at h
  next e heq => simp at h
  next seen0 heq =>
    split at h
    next e2 heq2 => simp at h
    next st heq2 =>
      simp at h
      exact ⟨seen0, st, heq, heq2, h.1.symm, h.2.1.symm, h.2.2.symm⟩

theorem mergeResults_eq (c : MergeCtx) (s : Store) (results : List JVal)
    (seen0 : List String) (st : MergeState)
    (h1 : seedKeys s.articles = .ok seen0)
    (h2 : mergeLoop c ⟨s.articles, seen0, 0, 0⟩ results = .ok st) :
    mergeResults c s results =
      .ok ({ schema_version := s.schema_version, updated_at := .jstr c.fetchedAt,
             articles := st.articles,
             requests := s.requests ++ [requestRecord c results.length st.added st.skipped] },
           st.added, st.skipped) := by
  unfold mergeResults
  rw [h1]
  dsimp only
  rw [h2]

/-! ## Claim theorems -/

/-- C3: identity-key determinism with tier priority.  `article_key` is a
pure function of the record in this embedding, and: two records with equal
(non-empty, i.e. present) external identifiers get equal keys; two records
with empty identifiers and equal non-empty links get equal keys; two
records with empty identifiers, empty links and equal normalized
(title, timestamp, source) triples get equal keys.  (The non-emptiness in
each clause is the claim's "with ... identifiers/links": the empty cases
are exactly what the later clauses cover.) -/
theorem claim_C3 :
    (∀ fs1 fs2 : List (String × JVal), idNorm fs1 = idNorm fs2 → idNorm fs1 ≠ "" →
      article_key (.jobj fs1) = article_key (.jobj fs2)) ∧
    (∀ fs1 fs2 : List (String × JVal), idNorm fs1 = "" → idNorm fs2 = "" →
      linkNorm fs1 = linkNorm fs2 → linkNorm fs1 ≠ "" →
      article_key (.jobj fs1) = article_key (.jobj fs2)) ∧
    (∀ fs1 fs2 : List (String × JVal), idNorm fs1 = "" → idNorm fs2 = "" →
      linkNorm fs1 = "" → linkNorm fs2 = "" →
      titleNorm fs1 = titleNorm fs2 → pubNorm fs1 = pubNorm fs2 →
      sourceNorm fs1 = sourceNorm fs2 →
      article_key (.jobj fs1) = article_key (.jobj fs2)) := by
  refine ⟨?_, ?_, ?_⟩
  · intro fs1 fs2 heq hne
    have hne2 : idNorm fs2 ≠ "" := heq ▸ hne
    simp [article_key, article_key_obj_id fs1 hne, article_key_obj_id fs2 hne2, heq]
  · intro fs1 fs2 h1 h2 heq hne
    have hne2 : linkNorm fs2 ≠ "" := heq ▸ hne
    simp [article_key, article_key_obj_link fs1 h1 hne, article_key_obj_link fs2 h2 hne2, heq]
  · intro fs1 fs2 h1 h2 hl1 hl2 ht hp hs
    simp [article_key, article_key_obj_fb fs1 h1 hl1, article_key_obj_fb fs2 h2 hl2, ht, hp, hs]

/-- Witness for C3 at concrete records (note the second record of the
first pair carries the identifier with surrounding whitespace, normalized
away by the key deriver). -/
theorem claim_C3_witness :
    article_key (.jobj [("article_id", .jstr "42"), ("link", .jstr "http://a")]) =
      article_key (.jobj [("article_id", .jstr " 42 "), ("link", .jstr "http://b")]) ∧
    article_key (.jobj [("link", .jstr "http://same")]) =
      article_key (.jobj [("link", .jstr "http://same"), ("title", .jstr "T")]) ∧
    article_key (.jobj [("title", .jstr "T"), ("pubDate", .jstr "2020"), ("source_id", .jstr "s")]) =
      article_key (.jobj [("title", .jstr "T"), ("published_at", .jstr "2020"), ("source_name", .jstr "s")]) :=
  ⟨claim_C3.1 _ _ (by decide) (by decide),
   claim_C3.2.1 _ _ (by decide) (by decide) (by decide) (by decide),
   claim_C3.2.2 _ _ (by decide) (by decide) (by decide) (by decide) (by decide) (by decide)
     (by decide)⟩

/-- C4: tier namespacing.  Records whose keys are produced by different
derivation tiers of `article_key` never share a key, whatever their field
values: the `id:`, `link:` and `fallback:` prefixes are pairwise
incompatible. -/
theorem claim_C4 (fs1 fs2 : List (String × JVal)) (h : keyTier fs1 ≠ keyTier fs2) :
    article_key_obj fs1 ≠ article_key_obj fs2 := by
  by_cases hi1 : idNorm fs1 = ""
  · by_cases hl1 : linkNorm fs1 = ""
    · by_cases hi2 : idNorm fs2 = ""
      · by_cases hl2 : linkNorm fs2 = ""
        · exact absurd (by simp [keyTier, hi1, hl1, hi2, hl2]) h
        · rw [article_key_obj_fb fs1 hi1 hl1, article_key_obj_link fs2 hi2 hl2]
          exact Ne.symm (key_link_ne_fb _ _ _ _)
      · rw [article_key_obj_fb fs1 hi1 hl1, article_key_obj_id fs2 hi2]
        exact Ne.symm (key_id_ne_fb _ _ _ _)
    · by_cases hi2 : idNorm fs2 = ""
      · by_cases hl2 : linkNorm fs2 = ""
        · rw [article_key_obj_link fs1 hi1 hl1, article_key_obj_fb fs2 hi2 hl2]
          exact key_link_ne_fb _ _ _ _
        · exact absurd (by simp [keyTier, hi1, hl1, hi2, hl2]) h
      · rw [article_key_obj_link fs1 hi1 hl1, article_key_obj_id fs2 hi2]
        exact Ne.symm (key_id_ne_link _ _)
  · by_cases hi2 : idNorm fs2 = ""
    · by_cases hl2 : linkNorm fs2 = ""
      · rw [article_key_obj_id fs1 hi1, article_key_obj_fb fs2 hi2 hl2]
        exact key_id_ne_fb _ _ _ _
      · rw [article_key_obj_id fs1 hi1, article_key_obj_link fs2 hi2 hl2]
        exact key_id_ne_link _ _
    · exact absurd (by simp [keyTier, hi1, hi2]) h

/-- Witness for C4: an id-tier record versus a link-tier record. -/
theorem claim_C4_witness :
    keyTier [("article_id", .jstr "42")] ≠ keyTier [("link", .jstr "http://x")] ∧
    article_key_obj [("article_id", .jstr "42")] ≠ article_key_obj [("link", .jstr "http://x")] :=
  ⟨by decide, claim_C4 _ _ (by decide)⟩

/-- C8 counterexample: the claim quantifies over non-record elements such
as bare strings, but on a bare string `article_key` hits
`item.get("article_id")` on a value with no `.get` attribute — an
`AttributeError` — and seeding the seen-key set from such a store fails
with the same error rather than succeeding. -/
theorem claim_C8_counterexample :
    article_key (.jstr "just a string") =
      .error "AttributeError: object has no attribute get" ∧
    seedKeys [.jstr "just a string"] =
      .error "AttributeError: object has no attribute get" := ⟨rfl, rfl⟩

/-- C8 amended: for every record (dict) element of the articles sequence,
computing the identity key succeeds; when the external-identifier and link
fields are absent the element falls through to the composite-fallback tier
with absent fields treated as empty strings; and seeding the seen-key set
from a store whose articles are all records cannot fail.  (Non-record
elements such as bare strings raise `AttributeError` instead —
see the counterexample.) -/
theorem claim_C8_amended :
    (∀ fs : List (String × JVal), ∃ k, article_key (.jobj fs) = .ok k) ∧
    (∀ fs : List (String × JVal),
      lookupField fs "article_id" = none → lookupField fs "link" = none →
      article_key (.jobj fs) =
        .ok ("fallback:" ++ titleNorm fs ++ "|" ++ pubNorm fs ++ "|" ++ sourceNorm fs)) ∧
    (∀ arts : List JVal, (∀ a ∈ arts, ∃ fs, a = .jobj fs) → ∃ ks, seedKeys arts = .ok ks) := by
  refine ⟨fun fs => ⟨article_key_obj fs, rfl⟩, ?_, ?_⟩
  · intro fs hid hlink
    have h1 : idNorm fs = "" := by
      rw [idNorm]
      have hj : jget fs "article_id" = .jnull := by simp [jget, hid]
      rw [hj]
      rfl
    have h2 : linkNorm fs = "" := by
      rw [linkNorm]
      have hj : jget fs "link" = .jnull := by simp [jget, hlink]
      rw [hj]
      rfl
    simp [article_key, article_key_obj_fb fs h1 h2]
  · intro arts hall
    induction arts with
    | nil => exact ⟨[], rfl⟩
    | cons a rest ih =>
        obtain ⟨fs, hfs⟩ := hall a (by simp)
        obtain ⟨ks, hks⟩ := ih (fun x hx => hall x (List.mem_cons_of_mem _ hx))
        exact ⟨article_key_obj fs :: ks, by rw [hfs]; simp [seedKeys, article_key, hks]⟩

/-- Witness for the amended C8: a record with only fallback-tier fields,
and seeding from a two-record store (one of them the empty record). -/
theorem claim_C8_amended_witness :
    (∃ k, article_key (.jobj [("weird", .jarr [])]) = .ok k) ∧
    article_key (.jobj [("title", .jstr "T"), ("pubDate", .jstr "D"), ("source_id", .jstr "S")]) =
      .ok ("fallback:" ++
        titleNorm [("title", .jstr "T"), ("pubDate", .jstr "D"), ("source_id", .jstr "S")] ++ "|" ++
        pubNorm [("title", .jstr "T"), ("pubDate", .jstr "D"), ("source_id", .jstr "S")] ++ "|" ++
        sourceNorm [("title", .jstr "T"), ("pubDate", .jstr "D"), ("source_id", .jstr "S")]) ∧
    (∃ ks, seedKeys [.jobj [("title", .jstr "T")], .jobj []] = .ok ks) :=
  ⟨claim_C8_amended.1 _, claim_C8_amended.2.1 _ rfl rfl,
   claim_C8_amended.2.2 _ (by
    intro a ha
    rcases List.mem_cons.mp ha with h | h
    · exact ⟨_, h⟩
    · simp at h
      exact ⟨_, h⟩)⟩

/-! ## load_dump lemmas and C5 -/

theorem isJList_iff (v : JVal) : isJList v = true ↔ ∃ xs, v = .jarr xs := by
  cases v <;> simp [isJList]

theorem jget_setdefault_self (fs : List (String × JVal)) (k : String) (v : JVal) :
    jget (setdefaultField fs k v) k = (lookupField fs k).getD v := by
  rw [jget, lookupField_setdefault_self]

theorem jget_setdefault_ne (fs : List (String × JVal)) (k : String) (v : JVal)
    (k' : String) (h : k' ≠ k) :
    jget (setdefaultField fs k v) k' = jget fs k' := by
  rw [jget, lookupField_setdefault_ne fs k v k' h, jget]

theorem jget_coerceListField_ne (k : String) (fs : List (String × JVal))
    (k' : String) (h : k' ≠ k) :
    jget (coerceListField k fs) k' = jget fs k' := by
  unfold coerceListField
  split
  · rfl
  · exact jget_setField_ne fs k _ k' h

theorem coerceListField_isList (k : String) (fs : List (String × JVal)) :
    ∃ xs, jget (coerceListField k fs) k = .jarr xs := by
  unfold coerceListField
  by_cases h : isJList (jget fs k)
  · rw [if_pos h]
    exact (isJList_iff _).mp h
  · rw [if_neg h]
    exact ⟨[], jget_setField_self fs k _⟩

theorem coerceListField_coerce (k : String) (fs : List (String × JVal))
    (h : isJList (jget fs k) = false) :
    jget (coerceListField k fs) k = .jarr [] := by
  unfold coerceListField
  rw [if_neg (by simp [h]), jget_setField_self]

theorem coerceListField_keep (k : String) (fs : List (String × JVal))
    (h : isJList (jget fs k) = true) : coerceListField k fs = fs := by
  unfold coerceListField
  rw [if_pos h]

/-- C5: store-loader case analysis.  A missing or empty file yields the
freshly initialized store (schema version `"1.0"`, null `updated_at`,
empty `articles` and `requests`); a bare top-level list becomes the
articles of a new-format store with empty requests (so N records load to
length-N articles); a top-level object gets absent optional fields
defaulted and non-list `articles`/`requests` coerced to `[]`; invalid
JSON, and JSON that is neither an object nor a list, fail fatally with an
error (the model is pure and the error paths construct no store, so no
store state is mutated). -/
theorem claim_C5 :
    (load_dump .missing = .ok freshDump ∧ load_dump .empty = .ok freshDump ∧
      ∃ fs, freshDump = .jobj fs ∧ jget fs "schema_version" = .jstr "1.0" ∧
        jget fs "updated_at" = .jnull ∧ jget fs "articles" = .jarr [] ∧
        jget fs "requests" = .jarr []) ∧
    (∀ xs : List JVal, ∃ fs, load_dump (.parsed (.jarr xs)) = .ok (.jobj fs) ∧
      jget fs "articles" = .jarr xs ∧ jget fs "requests" = .jarr []) ∧
    (∀ gs : List (String × JVal), ∃ fs, load_dump (.parsed (.jobj gs)) = .ok (.jobj fs) ∧
      (lookupField gs "schema_version" = none → jget fs "schema_version" = .jstr "1.0") ∧
      (lookupField gs "updated_at" = none → jget fs "updated_at" = .jnull) ∧
      (∃ xs, jget fs "articles" = .jarr xs) ∧ (∃ xs, jget fs "requests" = .jarr xs) ∧
      (isJList (jget gs "articles") = false → jget fs "articles" = .jarr []) ∧
      (isJList (jget gs "requests") = false → jget fs "requests" = .jarr [])) ∧
    (load_dump .invalid = .error "Failed to read or parse") ∧
    (∀ v : JVal, (∀ xs, v ≠ .jarr xs) → (∀ gs, v ≠ .jobj gs) →
      load_dump (.parsed v) = .error "Unexpected JSON format") := by
  refine ⟨⟨rfl, rfl, _, rfl, ?_, ?_, ?_, ?_⟩, ?_, ?_, rfl, ?_⟩
  · rfl
  · rfl
  · rfl
  · rfl
  · intro xs
    refine ⟨_, rfl, ?_, ?_⟩
    · simp [jget, lookupField]
    · simp [jget, lookupField]
  · intro gs
    refine ⟨normDumpObj gs, rfl, ?_, ?_, ?_, ?_, ?_, ?_⟩
    · intro hsv
      unfold normDumpObj
      rw [jget_coerceListField_ne _ _ _ (by decide), jget_coerceListField_ne _ _ _ (by decide),
        jget_setdefault_ne _ _ _ _ (by decide), jget_setdefault_ne _ _ _ _ (by decide),
        jget_setdefault_ne _ _ _ _ (by decide), jget_setdefault_self, hsv]
      rfl
    · intro hua
      unfold normDumpObj
      rw [jget_coerceListField_ne _ _ _ (by decide), jget_coerceListField_ne _ _ _ (by decide),
        jget_setdefault_ne _ _ _ _ (by decide), jget_setdefault_ne _ _ _ _ (by decide),
        jget_setdefault_self, lookupField_setdefault_ne _ _ _ _ (by decide), hua]
      rfl
    · unfold normDumpObj
      rw [jget_coerceListField_ne _ _ _ (by decide)]
      exact coerceListField_isList _ _
    · unfold normDumpObj
      exact coerceListField_isList _ _
    · intro hcoerce
      unfold normDumpObj
      rw [jget_coerceListField_ne _ _ _ (by decide)]
      have hinner : jget (setdefaultField (setdefaultField (setdefaultField (setdefaultField gs
          "schema_version" (.jstr "1.0")) "updated_at" .jnull) "articles" (.jarr []))
          "requests" (.jarr [])) "articles" =
          (lookupField gs "articles").getD (.jarr []) := by
        rw [jget_setdefault_ne _ _ _ _ (by decide), jget_setdefault_self,
          lookupField_setdefault_ne _ _ _ _ (by decide),
          lookupField_setdefault_ne _ _ _ _ (by decide)]
      cases hl : lookupField gs "articles" with
      | none =>
          rw [hl] at hinner
          simp at hinner
          rw [coerceListField_keep _ _ (by rw [hinner]; rfl)]
          exact hinner
      | some w =>
          have hw : w = jget gs "articles" := by rw [jget, hl]
          rw [hl] at hinner
          simp at hinner
          apply coerceListField_coerce
          rw [hinner, hw]
          exact hcoerce
    · intro hcoerce
      unfold normDumpObj
      have hinner : jget (coerceListField "articles"
          (setdefaultField (setdefaultField (setdefaultField (setdefaultField gs
          "schema_version" (.jstr "1.0")) "updated_at" .jnull) "articles" (.jarr []))
          "requests" (.jarr []))) "requests" =
          (lookupField gs "requests").getD (.jarr []) := by
        rw [jget_coerceListField_ne _ _ _ (by decide), jget_setdefault_self,
          lookupField_setdefault_ne _ _ _ _ (by decide),
          lookupField_setdefault_ne _ _ _ _ (by decide),
          lookupField_setdefault_ne _ _ _ _ (by decide)]
      cases hl : lookupField gs "requests" with
      | none =>
          rw [hl] at hinner
          simp at hinner
          rw [coerceListField_keep _ _ (by rw [hinner]; rfl)]
          exact hinner
      | some w =>
          have hw : w = jget gs "requests" := by rw [jget, hl]
          rw [hl] at hinner
          simp at hinner
          apply coerceListField_coerce
          rw [hinner, hw]
          exact hcoerce
  · intro v h1 h2
    cases v with
    | jarr xs => exact absurd rfl (h1 xs)
    | jobj gs => exact absurd rfl (h2 gs)
    | jnull => rfl
    | jbool b => rfl
    | jnum n => rfl
    | jstr s => rfl

/-- Witness for C5: a bare two-element list upgrades to a store, an object
with a non-list `articles` field is coerced and defaulted, and a bare
number is rejected. -/
theorem claim_C5_witness :
    (∃ fs, load_dump (.parsed (.jarr [.jstr "x", .jstr "y"])) = .ok (.jobj fs) ∧
      jget fs "articles" = .jarr [.jstr "x", .jstr "y"] ∧ jget fs "requests" = .jarr []) ∧
    (∃ fs, load_dump (.parsed (.jobj [("articles", .jstr "oops")])) = .ok (.jobj fs) ∧
      jget fs "articles" = .jarr [] ∧ jget fs "schema_version" = .jstr "1.0") ∧
    load_dump (.parsed (.jnum 3)) = .error "Unexpected JSON format" := by
  refine ⟨claim_C5.2.1 _, ?_, claim_C5.2.2.2.2 _ (fun xs => by simp) (fun gs => by simp)⟩
  obtain ⟨fs, h1, h2, h3, h4, h5, h6, h7⟩ := claim_C5.2.2.1 [("articles", .jstr "oops")]
  exact ⟨fs, h1, h6 (by decide), h2 (by decide)⟩

/-! ## Merge claims C6, C7, C2, C1 -/

/-- C6: key-uniqueness invariant.  If the loaded store's articles carry
pairwise-distinct identity keys, then after any successful merge the
articles still carry pairwise-distinct keys: the seen-key set is seeded
from the store and grown with each appended record, so added keys are
fresh and mutually distinct. -/
theorem claim_C6 (c : MergeCtx) (s : Store) (results : List JVal) (s' : Store)
    (a k : Nat) (ks : List String)
    (hseed : seedKeys s.articles = .ok ks) (hnd : ks.Nodup)
    (hm : mergeResults c s results = .ok (s', a, k)) :
    ∃ ks', seedKeys s'.articles = .ok ks' ∧ ks'.Nodup := by
  obtain ⟨seen0, st, hseed0, hloop, hs', ha, hk⟩ := mergeResults_inv c s results s' a k hm
  have h0 : seen0 = ks := by
    rw [hseed] at hseed0
    exact (Except.ok.injEq _ _).mp hseed0.symm
  subst h0
  obtain ⟨sel, stamped, keys, hsub, hstamp, hkeys, hart, hseen, hknd, hfresh, hadd, hskip,
    hall⟩ := mergeLoop_spec c results _ _ hloop
  have hart' : st.articles = s.articles ++ stamped := by simpa using hart
  subst hs'
  refine ⟨seen0 ++ keys, ?_, ?_⟩
  · show seedKeys st.articles = _
    rw [hart']
    exact seedKeys_append _ _ _ _ hseed (seedKeys_stampAll c sel stamped keys hstamp hkeys)
  · rw [List.nodup_append]
    exact ⟨hnd, hknd, fun x hx1 hx2 => hfresh x hx2 (by simpa using hx1)⟩

/-- Witness for C6: a one-article store merged with one fresh article. -/
theorem claim_C6_witness :
    ∃ ks', seedKeys (Store.articles
      { schema_version := .jstr "1.0", updated_at := .jstr "2026-01-01T00:00:00Z",
        articles := [.jobj [("article_id", .jstr "1")],
          .jobj [("article_id", .jstr "2"), ("fetched_at", .jstr "2026-01-01T00:00:00Z"),
                 ("query_params", paramsObj cW)]],
        requests := [requestRecord cW 1 1 0] }) = .ok ks' ∧ ks'.Nodup :=
  claim_C6 cW ⟨.jstr "1.0", .jnull, [.jobj [("article_id", .jstr "1")]], []⟩
    [.jobj [("article_id", .jstr "2")]]
    { schema_version := .jstr "1.0", updated_at := .jstr "2026-01-01T00:00:00Z",
      articles := [.jobj [("article_id", .jstr "1")],
        .jobj [("article_id", .jstr "2"), ("fetched_at", .jstr "2026-01-01T00:00:00Z"),
               ("query_params", paramsObj cW)]],
      requests := [requestRecord cW 1 1 0] }
    1 0 ["id:1"] rfl (by decide) rfl

/-- C7: append-only order preservation.  A successful merge leaves the
prior articles unchanged as a prefix, appends exactly the stamped versions
of an in-order sublist of the fetched results, leaves prior request-audit
records unchanged as a prefix while appending exactly one new audit
record, and the add counter equals the number of appended records. -/
theorem claim_C7 (c : MergeCtx) (s : Store) (results : List JVal) (s' : Store) (a k : Nat)
    (hm : mergeResults c s results = .ok (s', a, k)) :
    ∃ sel adds, List.Sublist sel results ∧ stampAll c sel = .ok adds ∧
      s'.articles = s.articles ++ adds ∧ a = sel.length ∧
      s'.requests = s.requests ++ [requestRecord c results.length a k] ∧
      s'.schema_version = s.schema_version := by
  obtain ⟨seen0, st, hseed0, hloop, hs', ha, hk⟩ := mergeResults_inv c s results s' a k hm
  obtain ⟨sel, stamped, keys, hsub, hstamp, hkeys, hart, hseen, hknd, hfresh, hadd, hskip,
    hall⟩ := mergeLoop_spec c results _ _ hloop
  subst hs'
  subst ha
  subst hk
  refine ⟨sel, stamped, hsub, hstamp, ?_, ?_, rfl, rfl⟩
  · simpa using hart
  · simpa using hadd

/-- Witness for C7: an empty store merged with a results list that repeats
one link; exactly the first occurrence is stamped and appended. -/
theorem claim_C7_witness :
    ∃ sel adds : List JVal,
      List.Sublist sel [.jobj [("link", .jstr "http://a")], .jobj [("link", .jstr "http://a")]] ∧
      stampAll cW sel = .ok adds ∧
      Store.articles
        { schema_version := .jstr "1.0", updated_at := .jstr "2026-01-01T00:00:00Z",
          articles := [.jobj [("link", .jstr "http://a"),
            ("fetched_at", .jstr "2026-01-01T00:00:00Z"), ("query_params", paramsObj cW)]],
          requests := [requestRecord cW 2 1 1] } =
        Store.articles (⟨.jstr "1.0", .jnull, [], []⟩ : Store) ++ adds ∧
      1 = sel.length ∧
      Store.requests
        { schema_version := .jstr "1.0", updated_at := .jstr "2026-01-01T00:00:00Z",
          articles := [.jobj [("link", .jstr "http://a"),
            ("fetched_at", .jstr "2026-01-01T00:00:00Z"), ("query_params", paramsObj cW)]],
          requests := [requestRecord cW 2 1 1] } =
        Store.requests (⟨.jstr "1.0", .jnull, [], []⟩ : Store) ++
          [requestRecord cW 2 1 1] ∧
      Store.schema_version
        { schema_version := .jstr "1.0", updated_at := .jstr "2026-01-01T00:00:00Z",
          articles := [.jobj [("link", .jstr "http://a"),
            ("fetched_at", .jstr "2026-01-01T00:00:00Z"), ("query_params", paramsObj cW)]],
          requests := [requestRecord cW 2 1 1] } =
        Store.schema_version (⟨.jstr "1.0", .jnull, [], []⟩ : Store) :=
  claim_C7 cW ⟨.jstr "1.0", .jnull, [], []⟩
    [.jobj [("link", .jstr "http://a")], .jobj [("link", .jstr "http://a")]]
    { schema_version := .jstr "1.0", updated_at := .jstr "2026-01-01T00:00:00Z",
      articles := [.jobj [("link", .jstr "http://a"),
        ("fetched_at", .jstr "2026-01-01T00:00:00Z"), ("query_params", paramsObj cW)]],
      requests := [requestRecord cW 2 1 1] }
    1 1 rfl

/-- C2: idempotence of the merge.  After a successful merge of a results
list, merging the same list again succeeds with add counter 0 and skip
counter equal to the list's length, the articles sequence is unchanged
(so in particular its set of identity keys is unchanged). -/
theorem claim_C2 (c c2 : MergeCtx) (s : Store) (results : List JVal) (s' : Store) (a k : Nat)
    (hm : mergeResults c s results = .ok (s', a, k)) :
    ∃ s'', mergeResults c2 s' results = .ok (s'', 0, results.length) ∧
      s''.articles = s'.articles ∧
      (∀ key, (∃ x ∈ s''.articles, article_key x = .ok key) ↔
              (∃ x ∈ s'.articles, article_key x = .ok key)) := by
  obtain ⟨seen0, st, hseed0, hloop, hs', ha, hk⟩ := mergeResults_inv c s results s' a k hm
  obtain ⟨sel, stamped, keys, hsub, hstamp, hkeys, hart, hseen, hknd, hfresh, hadd, hskip,
    hall⟩ := mergeLoop_spec c results _ _ hloop
  have hart' : st.articles = s.articles ++ stamped := by simpa using hart
  have hseen' : st.seen = seen0 ++ keys := by simpa using hseen
  have hseed' : seedKeys st.articles = .ok (seen0 ++ keys) := by
    rw [hart']
    exact seedKeys_append _ _ _ _ hseed0 (seedKeys_stampAll c sel stamped keys hstamp hkeys)
  subst hs'
  have hcond : ∀ r ∈ results, ∃ kk, article_key r = .ok kk ∧
      kk ∈ (MergeState.mk st.articles (seen0 ++ keys) 0 0).seen := by
    intro r hr
    obtain ⟨kk, h1, h2⟩ := hall r hr
    rw [hseen'] at h2
    exact ⟨kk, h1, by simpa using h2⟩
  have hloop2 := mergeLoop_allSkip c2 results ⟨st.articles, seen0 ++ keys, 0, 0⟩ hcond
  have hres := mergeResults_eq c2
      { schema_version := s.schema_version, updated_at := .jstr c.fetchedAt,
        articles := st.articles,
        requests := s.requests ++ [requestRecord c results.length st.added st.skipped] }
      results (seen0 ++ keys) _ hseed' hloop2
  dsimp only at hres
  rw [Nat.zero_add] at hres
  exact ⟨_, hres, rfl, fun key => Iff.rfl⟩

/-- Witness for C2: re-merging a one-item results list into the store the
first merge produced adds nothing and skips the single item. -/
theorem claim_C2_witness :
    ∃ s'', mergeResults cW
      { schema_version := .jstr "1.0", updated_at := .jstr "2026-01-01T00:00:00Z",
        articles := [.jobj [("article_id", .jstr "9"),
          ("fetched_at", .jstr "2026-01-01T00:00:00Z"), ("query_params", paramsObj cW)]],
        requests := [requestRecord cW 1 1 0] }
      [.jobj [("article_id", .jstr "9")]] = .ok (s'', 0, 1) ∧
      s''.articles = Store.articles
        { schema_version := .jstr "1.0", updated_at := .jstr "2026-01-01T00:00:00Z",
          articles := [.jobj [("article_id", .jstr "9"),
            ("fetched_at", .jstr "2026-01-01T00:00:00Z"), ("query_params", paramsObj cW)]],
          requests := [requestRecord cW 1 1 0] } ∧
      (∀ key, (∃ x ∈ s''.articles, article_key x = .ok key) ↔
        (∃ x ∈ Store.articles
          { schema_version := .jstr "1.0", updated_at := .jstr "2026-01-01T00:00:00Z",
            articles := [.jobj [("article_id", .jstr "9"),
              ("fetched_at", .jstr "2026-01-01T00:00:00Z"), ("query_params", paramsObj cW)]],
            requests := [requestRecord cW 1 1 0] }, article_key x = .ok key)) :=
  claim_C2 cW cW ⟨.jstr "1.0", .jnull, [], []⟩ [.jobj [("article_id", .jstr "9")]]
    { schema_version := .jstr "1.0", updated_at := .jstr "2026-01-01T00:00:00Z",
      articles := [.jobj [("article_id", .jstr "9"),
        ("fetched_at", .jstr "2026-01-01T00:00:00Z"), ("query_params", paramsObj cW)]],
      requests := [requestRecord cW 1 1 0] }
    1 0 rfl

/-- C1: the end-to-end merge scenario.  For a loaded store holding exactly
one record whose identity key is `id:42`, and fetched results of two
items whose normalized external identifiers are `42` and `43`, the merge
appends exactly the stamped id-`43` item, counts one skip and one add,
and appends exactly one request-audit record whose `added` and `skipped`
fields are both 1. -/
theorem claim_C1 (c : MergeCtx) (s : Store) (a0 : JVal) (fs1 fs2 : List (String × JVal))
    (hs : s.articles = [a0]) (ha : article_key a0 = .ok "id:42")
    (hid1 : idNorm fs1 = "42") (hid2 : idNorm fs2 = "43") :
    ∃ v, stampItem c (.jobj fs2) = .ok v ∧
      mergeResults c s [.jobj fs1, .jobj fs2] =
        .ok ({ schema_version := s.schema_version, updated_at := .jstr c.fetchedAt,
               articles := s.articles ++ [v],
               requests := s.requests ++ [requestRecord c 2 1 1] }, 1, 1) ∧
      (∃ rr, requestRecord c 2 1 1 = .jobj rr ∧ jget rr "added" = .jnum 1 ∧
        jget rr "skipped" = .jnum 1) := by
  have hne1 : idNorm fs1 ≠ "" := by rw [hid1]; decide
  have hne2 : idNorm fs2 ≠ "" := by rw [hid2]; decide
  have hk1 : article_key (.jobj fs1) = .ok "id:42" := by
    have h := article_key_obj_id fs1 hne1
    rw [hid1] at h
    simp [article_key, h]
  have hk2 : article_key (.jobj fs2) = .ok "id:43" := by
    have h := article_key_obj_id fs2 hne2
    rw [hid2] at h
    simp [article_key, h]
  have hseed : seedKeys s.articles = .ok ["id:42"] := by
    rw [hs]
    simp [seedKeys, ha]
  have hloop : mergeLoop c ⟨s.articles, ["id:42"], 0, 0⟩ [.jobj fs1, .jobj fs2] =
      .ok ⟨s.articles ++
        [.jobj (setField (setField fs2 "fetched_at" (.jstr c.fetchedAt))
          "query_params" (paramsObj c))], ["id:42", "id:43"], 1, 1⟩ := by
    rw [mergeLoop, hk1]
    dsimp only
    rw [if_pos (show ("id:42" : String) ∈ ["id:42"] by decide)]
    rw [mergeLoop, hk2]
    dsimp only
    rw [if_neg (show ("id:43" : String) ∉ ["id:42"] by decide)]
    rfl
  refine ⟨.jobj (setField (setField fs2 "fetched_at" (.jstr c.fetchedAt))
    "query_params" (paramsObj c)), rfl, ?_, ⟨_, rfl, rfl, rfl⟩⟩
  exact mergeResults_eq c s [.jobj fs1, .jobj fs2] ["id:42"]
    ⟨s.articles ++ [.jobj (setField (setField fs2 "fetched_at" (.jstr c.fetchedAt))
      "query_params" (paramsObj c))], ["id:42", "id:43"], 1, 1⟩ hseed hloop

/-- Witness for C1 at fully concrete records. -/
theorem claim_C1_witness :
    ∃ v, stampItem cW (.jobj [("article_id", .jstr "43")]) = .ok v ∧
      mergeResults cW ⟨.jstr "1.0", .jnull, [.jobj [("article_id", .jstr "42")]], []⟩
        [.jobj [("article_id", .jstr "42"), ("title", .jstr "A")],
         .jobj [("article_id", .jstr "43")]] =
        .ok ({ schema_version := Store.schema_version
                 (⟨.jstr "1.0", .jnull, [.jobj [("article_id", .jstr "42")]], []⟩ : Store),
               updated_at := .jstr cW.fetchedAt,
               articles := Store.articles
                 (⟨.jstr "1.0", .jnull, [.jobj [("article_id", .jstr "42")]], []⟩ : Store) ++ [v],
               requests := Store.requests
                 (⟨.jstr "1.0", .jnull, [.jobj [("article_id", .jstr "42")]], []⟩ : Store) ++
                   [requestRecord cW 2 1 1] }, 1, 1) ∧
      (∃ rr, requestRecord cW 2 1 1 = .jobj rr ∧ jget rr "added" = .jnum 1 ∧
        jget rr "skipped" = .jnum 1) :=
  claim_C1 cW ⟨.jstr "1.0", .jnull, [.jobj [("article_id", .jstr "42")]], []⟩
    (.jobj [("article_id", .jstr "42")])
    [("article_id", .jstr "42"), ("title", .jstr "A")] [("article_id", .jstr "43")]
    rfl rfl (by decide) (by decide)

/-! ## Summarization-augmentation lemmas and C9 -/

theorem assocGet_assocSet_self (m : List (JVal × JVal)) (k v : JVal) :
    assocGet (assocSet m k v) k = some v := by
  induction m with
  | nil => simp [assocSet, assocGet]
  | cons p rest ih =>
      obtain ⟨k0, v0⟩ := p
      by_cases h : k0 = k
      · simp [assocSet, h, assocGet]
      · simp [assocSet, h, assocGet, ih]

theorem assocGet_assocSet_ne (m : List (JVal × JVal)) (k v k' : JVal) (h : k' ≠ k) :
    assocGet (assocSet m k v) k' = assocGet m k' := by
  induction m with
  | nil => simp [assocSet, assocGet, Ne.symm h]
  | cons p rest ih =>
      obtain ⟨k0, v0⟩ := p
      by_cases h0 : k0 = k
      · subst h0
        simp [assocSet, assocGet, Ne.symm h]
      · simp [assocSet, h0, assocGet, ih]

theorem mem_assocSet (m : List (JVal × JVal)) (k v : JVal) :
    ∀ p ∈ assocSet m k v, p = (k, v) ∨ p ∈ m := by
  induction m with
  | nil => simp [assocSet]
  | cons q rest ih =>
      obtain ⟨k0, v0⟩ := q
      intro p hp
      by_cases h : k0 = k
      · subst h
        simp [assocSet] at hp
        rcases hp with hp | hp
        · exact Or.inl (by simp [hp])
        · exact Or.inr (by simp [hp])
      · simp [assocSet, h] at hp
        rcases hp with hp | hp
        · exact Or.inr (by simp [hp])
        · rcases ih p hp with hh | hh
          · exact Or.inl hh
          · exact Or.inr (by simp [hh])

theorem assocGet_mem (m : List (JVal × JVal)) (k v : JVal) (h : assocGet m k = some v) :
    (k, v) ∈ m := by
  induction m with
  | nil => simp [assocGet] at h
  | cons p rest ih =>
      obtain ⟨k0, v0⟩ := p
      by_cases h0 : k0 = k
      · subst h0
        simp [assocGet] at h
        simp [h]
      · simp [assocGet, h0] at h
        exact List.mem_cons_of_mem _ (ih h)

theorem assocGet_assocSet_isSome (m : List (JVal × JVal)) (k v idv : JVal) :
    (assocGet (assocSet m k v) idv).isSome = true ↔
      (idv = k ∨ (assocGet m idv).isSome = true) := by
  by_cases he : idv = k
  · subst he
    simp [assocGet_assocSet_self]
  · simp [assocGet_assocSet_ne m k v idv he, he]

theorem respCovers_cons (gs : List (String × JVal)) (rest : List JVal) (idv : JVal) :
    respCovers (.jobj gs :: rest) idv ↔
      ((pyTruthy (jget gs "id") = true ∧ jget gs "id" = idv) ∨ respCovers rest idv) := by
  unfold respCovers
  constructor
  · rintro ⟨gs', hmem, ht, hid⟩
    rcases List.mem_cons.mp hmem with he | hm
    · have hg : gs' = gs := JVal.jobj.inj he
      subst hg
      exact Or.inl ⟨ht, hid⟩
    · exact Or.inr ⟨gs', hm, ht, hid⟩
  · rintro (⟨ht, hid⟩ | ⟨gs', hm, ht, hid⟩)
    · exact ⟨gs, by simp, ht, hid⟩
    · exact ⟨gs', List.mem_cons_of_mem _ hm, ht, hid⟩

theorem buildMappingAux_ok : ∀ (ris : List JVal) (m : List (JVal × JVal)),
    (∀ ri ∈ ris, ∃ gs, ri = .jobj gs ∧
      (pyTruthy (jget gs "id") = true → pyHashable (jget gs "id") = true)) →
    ∃ m', buildMappingAux m ris = .ok m' := by
  intro ris
  induction ris with
  | nil => intro m _; exact ⟨m, rfl⟩
  | cons ri rest ih =>
      intro m hris
      obtain ⟨gs, hgs, hh⟩ := hris ri (by simp)
      subst hgs
      have hj : jgetE (.jobj gs) "id" = .ok (jget gs "id") := rfl
      by_cases ht : pyTruthy (jget gs "id") = true
      · obtain ⟨m', hm'⟩ := ih (assocSet m (jget gs "id") (.jobj gs))
          (fun x hx => hris x (List.mem_cons_of_mem _ hx))
        refine ⟨m', ?_⟩
        rw [buildMappingAux, hj]
        dsimp only
        rw [if_pos ht, if_pos (hh ht)]
        exact hm'
      · obtain ⟨m', hm'⟩ := ih m (fun x hx => hris x (List.mem_cons_of_mem _ hx))
        refine ⟨m', ?_⟩
        rw [buildMappingAux, hj]
        dsimp only
        rw [if_neg ht]
        exact hm'

theorem buildMappingAux_spec : ∀ (ris : List JVal) (m m' : List (JVal × JVal)),
    buildMappingAux m ris = .ok m' →
    (∀ ri ∈ ris, ∃ gs, ri = .jobj gs) →
    (∀ p ∈ m', p ∈ m ∨ ∃ gs, p.2 = .jobj gs ∧ pyTruthy (jget gs "id") = true ∧
        jget gs "id" = p.1 ∧ .jobj gs ∈ ris) ∧
    (∀ idv, (assocGet m' idv).isSome = true ↔
      ((assocGet m idv).isSome = true ∨ respCovers ris idv)) := by
  intro ris
  induction ris with
  | nil =>
      intro m m' h _
      simp [buildMappingAux] at h
      subst h
      refine ⟨fun p hp => Or.inl hp, fun idv => ?_⟩
      simp [respCovers]
  | cons ri rest ih =>
      intro m m' h hris
      obtain ⟨gs, hgs⟩ := hris ri (by simp)
      subst hgs
      have hj : jgetE (.jobj gs) "id" = .ok (jget gs "id") := rfl
      rw [buildMappingAux, hj] at h
      dsimp only at h
      by_cases ht : pyTruthy (jget gs "id") = true
      · rw [if_pos ht] at h
        by_cases hh : pyHashable (jget gs "id") = true
        · rw [if_pos hh] at h
          obtain ⟨hmem, hiff⟩ := ih (assocSet m (jget gs "id") (.jobj gs)) m' h
            (fun x hx => hris x (List.mem_cons_of_mem _ hx))
          refine ⟨?_, ?_⟩
          · intro p hp
            rcases hmem p hp with hp1 | ⟨gs', h1, h2, h3, h4⟩
            · rcases mem_assocSet m (jget gs "id") (.jobj gs) p hp1 with he | hm2
              · subst he
                exact Or.inr ⟨gs, rfl, ht, rfl, by simp⟩
              · exact Or.inl hm2
            · exact Or.inr ⟨gs', h1, h2, h3, List.mem_cons_of_mem _ h4⟩
          · intro idv
            rw [hiff idv, assocGet_assocSet_isSome, respCovers_cons]
            constructor
            · rintro ((he | hm2) | hc)
              · exact Or.inr (Or.inl ⟨ht, he.symm⟩)
              · exact Or.inl hm2
              · exact Or.inr (Or.inr hc)
            · rintro (hm2 | (⟨_, hid⟩ | hc))
              · exact Or.inl (Or.inr hm2)
              · exact Or.inl (Or.inl hid.symm)
              · exact Or.inr hc
        · rw [if_neg hh] at h
          simp at h
      · rw [if_neg ht] at h
        obtain ⟨hmem, hiff⟩ := ih m m' h (fun x hx => hris x (List.mem_cons_of_mem _ hx))
        refine ⟨?_, ?_⟩
        · intro p hp
          rcases hmem p hp with hp1 | ⟨gs', h1, h2, h3, h4⟩
          · exact Or.inl hp1
          · exact Or.inr ⟨gs', h1, h2, h3, List.mem_cons_of_mem _ h4⟩
        · intro idv
          rw [hiff idv, respCovers_cons]
          constructor
          · rintro (hm2 | hc)
            · exact Or.inl hm2
            · exact Or.inr (Or.inr hc)
          · rintro (hm2 | (⟨ht', _⟩ | hc))
            · exact Or.inl hm2
            · exact absurd ht' ht
            · exact Or.inr hc

theorem augmentItem_eval (ris : List JVal) (mapping : List (JVal × JVal))
    (fs : List (String × JVal)) (idv : JVal)
    (hid : lookupField fs "id" = some idv) (hhash : pyHashable idv = true)
    (hvals : ∀ p ∈ mapping, ∃ gs, p.2 = .jobj gs ∧ pyTruthy (jget gs "id") = true ∧
      jget gs "id" = p.1 ∧ .jobj gs ∈ ris) :
    (assocGet mapping idv = none → augmentItem mapping (.jobj fs) = .ok (.jobj fs)) ∧
    (∀ ai, assocGet mapping idv = some ai →
      ∃ gs, ai = .jobj gs ∧ .jobj gs ∈ ris ∧ pyTruthy (jget gs "id") = true ∧
        jget gs "id" = idv ∧
        augmentItem mapping (.jobj fs) =
          .ok (.jobj (setField (setField fs "ai_summary" (jget gs "summary"))
            "ai_tags" (pyOr (jget gs "tags") (.jarr []))))) := by
  have hind : jIndex (.jobj fs) "id" = .ok idv := by simp [jIndex, hid]
  constructor
  · intro hnone
    rw [augmentItem, hind]
    dsimp only
    rw [if_pos hhash, hnone]
  · intro ai hsome
    obtain ⟨gs, hgs, ht, hkey, hmem⟩ := hvals (idv, ai) (assocGet_mem mapping idv ai hsome)
    dsimp only at hgs hkey
    subst hgs
    refine ⟨gs, rfl, hmem, ht, hkey, ?_⟩
    rw [augmentItem, hind]
    dsimp only
    rw [if_pos hhash, hsome]
    dsimp only
    have hgsne : pyTruthy (.jobj gs) = true := by
      cases gs with
      | nil => simp [jget, lookupField, pyTruthy] at ht
      | cons p rest => rfl
    rw [if_pos hgsne]
    rfl

theorem augmentAll_spec (ris : List JVal) (mapping : List (JVal × JVal))
    (hvals : ∀ p ∈ mapping, ∃ gs, p.2 = .jobj gs ∧ pyTruthy (jget gs "id") = true ∧
      jget gs "id" = p.1 ∧ .jobj gs ∈ ris) :
    ∀ items : List JVal,
    (∀ it ∈ items, ∃ fs idv, it = .jobj fs ∧ lookupField fs "id" = some idv ∧
      pyHashable idv = true) →
    ∃ out, augmentAll mapping items = .ok out ∧
      List.Forall₂ (fun it o => ∃ fs idv, it = .jobj fs ∧ lookupField fs "id" = some idv ∧
        ((assocGet mapping idv = none ∧ o = it) ∨
         (∃ gs, assocGet mapping idv = some (.jobj gs) ∧ .jobj gs ∈ ris ∧
            pyTruthy (jget gs "id") = true ∧ jget gs "id" = idv ∧
            o = .jobj (setField (setField fs "ai_summary" (jget gs "summary"))
              "ai_tags" (pyOr (jget gs "tags") (.jarr [])))))) items out := by
  intro items
  induction items with
  | nil => intro _; exact ⟨[], rfl, List.Forall₂.nil⟩
  | cons it rest ih =>
      intro hall
      obtain ⟨fs, idv, hfs, hid, hhash⟩ := hall it (by simp)
      obtain ⟨out, hout, hf⟩ := ih (fun x hx => hall x (List.mem_cons_of_mem _ hx))
      obtain ⟨hnone, hsome⟩ := augmentItem_eval ris mapping fs idv hid hhash hvals
      subst hfs
      cases hag : assocGet mapping idv with
      | none =>
          refine ⟨.jobj fs :: out, ?_, ?_⟩
          · rw [augmentAll, hnone hag]
            dsimp only
            rw [hout]
          · exact List.Forall₂.cons ⟨fs, idv, rfl, hid, Or.inl ⟨hag, rfl⟩⟩ hf
      | some ai =>
          obtain ⟨gs, hai, hmem, ht, hkey, heval⟩ := hsome ai hag
          subst hai
          refine ⟨.jobj (setField (setField fs "ai_summary" (jget gs "summary"))
            "ai_tags" (pyOr (jget gs "tags") (.jarr []))) :: out, ?_, ?_⟩
          · rw [augmentAll, heval]
            dsimp only
            rw [hout]
          · exact List.Forall₂.cons ⟨fs, idv, rfl, hid, Or.inr ⟨gs, hag, hmem, ht, hkey, rfl⟩⟩ hf

/-- C9: partial summarization.  For items that are records carrying a
string `id` (the ids the pipeline derives are strings, and a truthy
unhashable id would raise `TypeError` at `mapping.get`/`mapping[...]`,
which the model reproduces), and a parsed response object whose `items`
field is a list of records with string ids where truthy, the augmentation
loop completes, and each item whose id the response covers receives the
`ai_summary` and `ai_tags` fields carrying exactly the covering response
entry's returned `summary` value and `tags or []` value, while each item
whose id is not covered is returned exactly as it was (in particular
without those fields). -/
theorem claim_C9 (items : List JVal) (pfs : List (String × JVal)) (ris : List JVal)
    (hresp : jget pfs "items" = .jarr ris)
    (hris : ∀ ri ∈ ris, ∃ gs, ri = .jobj gs ∧
      (pyTruthy (jget gs "id") = true → ∃ s, jget gs "id" = .jstr s))
    (hitems : ∀ it ∈ items, ∃ fs sid, it = .jobj fs ∧
      lookupField fs "id" = some (.jstr sid)) :
    ∃ mapping out, buildMapping ris = .ok mapping ∧
      summarize_merge items (.jobj pfs) = .ok out ∧
      out.length = items.length ∧
      List.Forall₂ (fun it o => ∃ fs idv, it = .jobj fs ∧ lookupField fs "id" = some idv ∧
        (¬ respCovers ris idv → o = it) ∧
        (respCovers ris idv → ∃ gs os, .jobj gs ∈ ris ∧
          pyTruthy (jget gs "id") = true ∧ jget gs "id" = idv ∧
          o = .jobj os ∧
          os = setField (setField fs "ai_summary" (jget gs "summary"))
            "ai_tags" (pyOr (jget gs "tags") (.jarr [])) ∧
          lookupField os "ai_summary" = some (jget gs "summary") ∧
          lookupField os "ai_tags" = some (pyOr (jget gs "tags") (.jarr [])))) items out := by
  have hris1 : ∀ ri ∈ ris, ∃ gs, ri = .jobj gs := by
    intro ri h
    obtain ⟨gs, h1, _⟩ := hris ri h
    exact ⟨gs, h1⟩
  have hrisok : ∀ ri ∈ ris, ∃ gs, ri = .jobj gs ∧
      (pyTruthy (jget gs "id") = true → pyHashable (jget gs "id") = true) := by
    intro ri h
    obtain ⟨gs, h1, h2⟩ := hris ri h
    refine ⟨gs, h1, fun ht => ?_⟩
    obtain ⟨s, hs⟩ := h2 ht
    rw [hs]
    rfl
  obtain ⟨mapping, hmap⟩ := buildMappingAux_ok ris [] hrisok
  obtain ⟨hmem, hiff⟩ := buildMappingAux_spec ris [] mapping hmap hris1
  have hQ : ∀ p ∈ mapping, ∃ gs, p.2 = .jobj gs ∧ pyTruthy (jget gs "id") = true ∧
      jget gs "id" = p.1 ∧ .jobj gs ∈ ris := by
    intro p hp
    rcases hmem p hp with hfalse | hq
    · simp at hfalse
    · exact hq
  have hitems2 : ∀ it ∈ items, ∃ fs idv, it = .jobj fs ∧ lookupField fs "id" = some idv ∧
      pyHashable idv = true := by
    intro it h
    obtain ⟨fs, sid, h1, h2⟩ := hitems it h
    exact ⟨fs, .jstr sid, h1, h2, rfl⟩
  obtain ⟨out, hout, hf⟩ := augmentAll_spec ris mapping hQ items hitems2
  have hsm : summarize_merge items (.jobj pfs) = .ok out := by
    have h1 : jgetE (.jobj pfs) "items" = .ok (.jarr ris) := by simp [jgetE, hresp]
    have h2 : pyIter (pyOr (.jarr ris) (.jarr [])) = .ok ris := by cases ris <;> rfl
    rw [summarize_merge, h1]
    dsimp only
    rw [h2]
    dsimp only
    rw [hmap]
    dsimp only
    exact hout
  refine ⟨mapping, out, hmap, hsm, (List.Forall₂.length_eq hf).symm, ?_⟩
  refine List.Forall₂.imp ?_ hf
  intro it o hh
  obtain ⟨fs, idv, hfs, hid, hcase⟩ := hh
  refine ⟨fs, idv, hfs, hid, ?_, ?_⟩
  · intro hnc
    rcases hcase with ⟨hnone, ho⟩ | ⟨gs, hsome, hmem2, ht, hkey, ho⟩
    · exact ho
    · exact absurd ⟨gs, hmem2, ht, hkey⟩ hnc
  · intro hc
    rcases hcase with ⟨hnone, ho⟩ | ⟨gs, hsome, hmem2, ht, hkey, ho⟩
    · exfalso
      have hsome2 : (assocGet mapping idv).isSome = true := (hiff idv).mpr (Or.inr hc)
      rw [hnone] at hsome2
      simp at hsome2
    · subst ho
      refine ⟨gs, _, hmem2, ht, hkey, rfl, rfl, ?_, ?_⟩
      · rw [lookupField_setField_ne _ _ _ _ (by decide), lookupField_setField_self]
      · rw [lookupField_setField_self]

/-- Witness for C9: three items with ids `a`, `b`, `c` and a response
covering only `a` and `b`. -/
theorem claim_C9_witness :
    ∃ mapping out, buildMapping
        [.jobj [("id", .jstr "a"), ("summary", .jstr "sa"), ("tags", .jarr [.jstr "t1"])],
         .jobj [("id", .jstr "b"), ("summary", .jstr "sb"), ("tags", .jarr [.jstr "t2"])]] =
        .ok mapping ∧
      summarize_merge
        [.jobj [("id", .jstr "a"), ("title", .jstr "TA")],
         .jobj [("id", .jstr "b"), ("title", .jstr "TB")],
         .jobj [("id", .jstr "c"), ("title", .jstr "TC")]]
        (.jobj [("items", .jarr
          [.jobj [("id", .jstr "a"), ("summary", .jstr "sa"), ("tags", .jarr [.jstr "t1"])],
           .jobj [("id", .jstr "b"), ("summary", .jstr "sb"), ("tags", .jarr [.jstr "t2"])]])]) =
        .ok out ∧
      out.length =
        [(.jobj [("id", .jstr "a"), ("title", .jstr "TA")] : JVal),
         .jobj [("id", .jstr "b"), ("title", .jstr "TB")],
         .jobj [("id", .jstr "c"), ("title", .jstr "TC")]].length ∧
      List.Forall₂ (fun it o => ∃ fs idv, it = .jobj fs ∧ lookupField fs "id" = some idv ∧
        (¬ respCovers
          [.jobj [("id", .jstr "a"), ("summary", .jstr "sa"), ("tags", .jarr [.jstr "t1"])],
           .jobj [("id", .jstr "b"), ("summary", .jstr "sb"), ("tags", .jarr [.jstr "t2"])]]
          idv → o = it) ∧
        (respCovers
          [.jobj [("id", .jstr "a"), ("summary", .jstr "sa"), ("tags", .jarr [.jstr "t1"])],
           .jobj [("id", .jstr "b"), ("summary", .jstr "sb"), ("tags", .jarr [.jstr "t2"])]]
          idv → ∃ gs os, (.jobj gs : JVal) ∈
            [(.jobj [("id", .jstr "a"), ("summary", .jstr "sa"), ("tags", .jarr [.jstr "t1"])] : JVal),
             .jobj [("id", .jstr "b"), ("summary", .jstr "sb"), ("tags", .jarr [.jstr "t2"])]] ∧
          pyTruthy (jget gs "id") = true ∧ jget gs "id" = idv ∧
          o = .jobj os ∧
          os = setField (setField fs "ai_summary" (jget gs "summary"))
            "ai_tags" (pyOr (jget gs "tags") (.jarr [])) ∧
          lookupField os "ai_summary" = some (jget gs "summary") ∧
          lookupField os "ai_tags" = some (pyOr (jget gs "tags") (.jarr []))))
        [.jobj [("id", .jstr "a"), ("title", .jstr "TA")],
         .jobj [("id", .jstr "b"), ("title", .jstr "TB")],
         .jobj [("id", .jstr "c"), ("title", .jstr "TC")]] out :=
  claim_C9
    [.jobj [("id", .jstr "a"), ("title", .jstr "TA")],
     .jobj [("id", .jstr "b"), ("title", .jstr "TB")],
     .jobj [("id", .jstr "c"), ("title", .jstr "TC")]]
    [("items", .jarr
      [.jobj [("id", .jstr "a"), ("summary", .jstr "sa"), ("tags", .jarr [.jstr "t1"])],
       .jobj [("id", .jstr "b"), ("summary", .jstr "sb"), ("tags", .jarr [.jstr "t2"])]])]
    [.jobj [("id", .jstr "a"), ("summary", .jstr "sa"), ("tags", .jarr [.jstr "t1"])],
     .jobj [("id", .jstr "b"), ("summary", .jstr "sb"), ("tags", .jarr [.jstr "t2"])]]
    rfl
    (by
      intro ri h
      rcases List.mem_cons.mp h with h | h
      · exact ⟨_, h, fun _ => ⟨"a", rfl⟩⟩
      · simp at h
        exact ⟨_, h, fun _ => ⟨"b", rfl⟩⟩)
    (by
      intro it h
      rcases List.mem_cons.mp h with h | h
      · exact ⟨_, "a", h, rfl⟩
      · rcases List.mem_cons.mp h with h | h
        · exact ⟨_, "b", h, rfl⟩
        · simp at h
          exact ⟨_, "c", h, rfl⟩)

/-! ## Within-run dedupe and C10 -/

/-- C10: the RSS pipeline's within-run dedupe key carries no tier
namespace — `item["link"] or item["title"] or item["id"]` is the bare
link when truthy, else the bare title when truthy, else the stored
derived id, with no prefix distinguishing the tiers.  Consequently a run
input with two distinct items, the second having an empty link and a
title equal to the first item's link, silently drops the second item as a
duplicate of the first. -/
theorem claim_C10 :
    (∀ (fs : List (String × JVal)) (l : String),
      lookupField fs "link" = some (.jstr l) → l ≠ "" →
      dedupeKey (.jobj fs) = .ok (.jstr l)) ∧
    (∀ (fs : List (String × JVal)) (t : String),
      lookupField fs "link" = some (.jstr "") →
      lookupField fs "title" = some (.jstr t) → t ≠ "" →
      dedupeKey (.jobj fs) = .ok (.jstr t)) ∧
    (∀ (fs : List (String × JVal)) (i : JVal),
      lookupField fs "link" = some (.jstr "") →
      lookupField fs "title" = some (.jstr "") →
      lookupField fs "id" = some i →
      dedupeKey (.jobj fs) = .ok i) ∧
    ((.jobj [("id", .jstr "aaaaaaaaaaaa"), ("title", .jstr "Story title"),
        ("link", .jstr "http://x/1")] : JVal) ≠
      .jobj [("id", .jstr "bbbbbbbbbbbb"), ("title", .jstr "http://x/1"),
        ("link", .jstr "")] ∧
      dedupeLoop "2026-01-01T00:00:00Z" [] []
        [.jobj [("id", .jstr "aaaaaaaaaaaa"), ("title", .jstr "Story title"),
           ("link", .jstr "http://x/1")],
         .jobj [("id", .jstr "bbbbbbbbbbbb"), ("title", .jstr "http://x/1"),
           ("link", .jstr "")]] =
        .ok [.jobj [("id", .jstr "aaaaaaaaaaaa"), ("title", .jstr "Story title"),
           ("link", .jstr "http://x/1"), ("fetched_at", .jstr "2026-01-01T00:00:00Z")]]) := by
  refine ⟨?_, ?_, ?_, ?_, rfl⟩
  · intro fs l hl hne
    have h1 : jIndex (.jobj fs) "link" = .ok (.jstr l) := by simp [jIndex, hl]
    rw [dedupeKey, h1]
    dsimp only
    rw [if_pos (show pyTruthy (.jstr l) = true by simp [pyTruthy, hne])]
  · intro fs t hl ht hne
    have h1 : jIndex (.jobj fs) "link" = .ok (.jstr "") := by simp [jIndex, hl]
    have h2 : jIndex (.jobj fs) "title" = .ok (.jstr t) := by simp [jIndex, ht]
    rw [dedupeKey, h1]
    dsimp only
    rw [if_neg (show ¬ pyTruthy (.jstr "") = true by simp [pyTruthy]), h2]
    dsimp only
    rw [if_pos (show pyTruthy (.jstr t) = true by simp [pyTruthy, hne])]
  · intro fs i hl ht hi
    have h1 : jIndex (.jobj fs) "link" = .ok (.jstr "") := by simp [jIndex, hl]
    have h2 : jIndex (.jobj fs) "title" = .ok (.jstr "") := by simp [jIndex, ht]
    have h3 : jIndex (.jobj fs) "id" = .ok i := by simp [jIndex, hi]
    rw [dedupeKey, h1]
    dsimp only
    rw [if_neg (show ¬ pyTruthy (.jstr "") = true by simp [pyTruthy]), h2]
    dsimp only
    rw [if_neg (show ¬ pyTruthy (.jstr "") = true by simp [pyTruthy]), h3]
  · intro h
    have h2 := JVal.jobj.inj h
    simp at h2

/-- Witness for C10's key-structure clauses at concrete items. -/
theorem claim_C10_witness :
    dedupeKey (.jobj [("id", .jstr "x"), ("title", .jstr "T"), ("link", .jstr "http://l")]) =
      .ok (.jstr "http://l") ∧
    dedupeKey (.jobj [("id", .jstr "x"), ("title", .jstr "T"), ("link", .jstr "")]) =
      .ok (.jstr "T") ∧
    dedupeKey (.jobj [("id", .jstr "x"), ("title", .jstr ""), ("link", .jstr "")]) =
      .ok (.jstr "x") :=
  ⟨claim_C10.1 _ _ rfl (by decide), claim_C10.2.1 _ _ rfl rfl (by decide),
   claim_C10.2.2.1 _ _ rfl rfl rfl⟩
